import Mathlib

/-!
# Verification of the python-mcast codec, latency tracker and listener loop

Shallow embedding of `src/multicast_producer.py` and `src/multicast_listener.py`.

Conventions of the embedding:
* Python `bytes` values are `List Nat` with every element below 256.
* Python unbounded `int` is `Int`; `struct` range checks are explicit.
* Python `float` (IEEE-754 binary64) values are modelled by the exact rational
  they denote (every finite double is a dyadic rational).  The conversion a
  `struct.pack('f', x)` performs from binary64 to binary32 is kept abstract as
  a parameter `toF32 : ℚ → Option Nat` returning the 32-bit pattern of the
  narrowed float (`none` models the `OverflowError` raised for finite doubles
  too large for binary32); the byte layout around it is concrete.
* Fallible operations return `Option`; `none` on the encode/decode functions
  models the `struct.error` the Python code raises there.
-/

/-- Big-endian byte string of width `w` for the natural number `x`
(`x` is reduced modulo `256 ^ w`, matching a caller that range-checks first). -/
def bytesBE : Nat → Nat → List Nat
  | 0, _ => []
  | w + 1, x => (x / 256 ^ w) :: bytesBE w (x % 256 ^ w)

/-- The natural number denoted by a big-endian byte string. -/
def natBE : List Nat → Nat
  | [] => 0
  | b :: bs => b * 256 ^ bs.length + natBE bs

theorem length_bytesBE (w x : Nat) : (bytesBE w x).length = w := by
  induction w generalizing x with
  | zero => rfl
  | succ w ih => simp [bytesBE, ih]

theorem natBE_bytesBE (w x : Nat) (h : x < 256 ^ w) : natBE (bytesBE w x) = x := by
  induction w generalizing x with
  | zero =>
    interval_cases x
    rfl
  | succ w ih =>
    have hm : x % 256 ^ w < 256 ^ w := Nat.mod_lt _ (Nat.pos_pow_of_pos w (by norm_num))
    simp [bytesBE, natBE, length_bytesBE, ih _ hm, Nat.div_add_mod']

/-- The logical message built by the producer loop (`multicast_producer.py`,
`main`).  The `timestamp` display field of the JSON dict is ignored by the
binary codec and omitted here; `temperature` and `humidity` carry the exact
rational value of the Python doubles. -/
structure Message where
  send_time : Int
  counter : Int
  temperature : ℚ
  humidity : ℚ
  status : String
deriving Repr, DecidableEq

/-- Embedding of `encode_binary_message` (producer, lines 66-81):
`struct.pack('!QIffB', send_time, counter, temperature, humidity,
1 if status == 'active' else 0)`.  `'Q'` requires `0 ≤ send_time < 2^64`,
`'I'` requires `0 ≤ counter < 2^32` (otherwise `struct.error`, here `none`);
`'f'` narrows the double to binary32 via the abstract `toF32`. -/
def encode_binary_message (toF32 : ℚ → Option Nat) (m : Message) : Option (List Nat) :=
  if 0 ≤ m.send_time ∧ m.send_time < 2 ^ 64 ∧ 0 ≤ m.counter ∧ m.counter < 2 ^ 32 then
    match toF32 m.temperature, toF32 m.humidity with
    | some tb, some hb =>
      some (bytesBE 8 m.send_time.toNat ++ bytesBE 4 m.counter.toNat ++
            bytesBE 4 tb ++ bytesBE 4 hb ++
            [if m.status = "active" then 1 else 0])
    | _, _ => none
  else none

/-- Result of `decode_binary_message` (listener, lines 114-132).  The two
float fields are recorded by their binary32 bit pattern: Python widens the
unpacked binary32 to binary64 exactly, so the pattern determines the decoded
value and the widening is injective. -/
structure Decoded where
  send_time : Nat
  counter : Nat
  temperature : Nat
  humidity : Nat
  status : String
deriving Repr, DecidableEq

/-- Embedding of `decode_binary_message` (listener, lines 114-132):
`struct.unpack('!QIffB', data)` raises `struct.error` (here `none`) unless
`len(data) == 21`, then splits the fixed layout 8+4+4+4+1 and maps the status
byte `1` to `"active"`, anything else to `"inactive"`. -/
def decode_binary_message (data : List Nat) : Option Decoded :=
  if data.length = 21 then
    some { send_time := natBE (data.take 8)
         , counter := natBE ((data.drop 8).take 4)
         , temperature := natBE ((data.drop 12).take 4)
         , humidity := natBE ((data.drop 16).take 4)
         , status := if natBE (data.drop 20) = 1 then "active" else "inactive" }
  else none

theorem slice_take8 (a r : List Nat) (ha : a.length = 8) : (a ++ r).take 8 = a :=
  List.take_left' ha

theorem slice_drop (n : Nat) (a r : List Nat) (ha : a.length = n) : (a ++ r).drop n = r :=
  List.drop_left' ha

/-- Embedding of class `LatencyStats` (listener, lines 15-26).  The
`start_time` field is recorded in the source but never read by any method,
and is omitted.  `latencies` models `deque(maxlen=window_size)` contents in
arrival order. -/
structure LatencyStats where
  window_size : Nat
  latencies : List Int
  message_count : Nat
deriving Repr, DecidableEq

/-- Constructor `LatencyStats.__init__` with the given `window_size` (default 100). -/
def mkLatencyStats (window_size : Nat := 100) : LatencyStats :=
  { window_size := window_size, latencies := [], message_count := 0 }

/-- Embedding of `deque.append` on a deque with `maxlen = m`: the new element goes to the
right and elements are discarded from the left until the length is at most
`m`. -/
def dequeAppend (m : Nat) (l : List Int) (x : Int) : List Int :=
  let l2 := l ++ [x]
  l2.drop (l2.length - m)

/-- Embedding of `LatencyStats.add_latency` (lines 23-26). -/
def LatencyStats.add_latency (s : LatencyStats) (latency_ns : Int) : LatencyStats :=
  { s with latencies := dequeAppend s.window_size s.latencies latency_ns
         , message_count := s.message_count + 1 }

/-- Minimum of a list as Python `min` computes it on a nonempty list
(the `[]` case is unreachable at every use site below). -/
def listMin : List Int → Int
  | [] => 0
  | x :: xs => xs.foldl min x

/-- Maximum of a list as Python `max` computes it on a nonempty list. -/
def listMax : List Int → Int
  | [] => 0
  | x :: xs => xs.foldl max x

/-- Embedding of `statistics.mean` on integer samples: the exact rational mean
(`statistics.mean` computes the exact fraction before the final float
conversion; all values compared in the theorems below are exactly
representable). -/
def listMean (l : List Int) : ℚ :=
  (l.sum : ℚ) / l.length

/-- The square of `statistics.stdev`: the sample variance with divisor
`n - 1`.  The square root `stdev` takes is irrational in general, and is
strictly monotone on nonnegative rationals, so the variance determines the
reported standard deviation; the summary below carries the square. -/
def sampleVarianceQ (l : List Int) : ℚ :=
  (l.map (fun x => ((x : ℚ) - listMean l) ^ 2)).sum / ((l.length : ℚ) - 1)

/-- The numeric content of the report string built by
`LatencyStats.get_stats` (lines 33-44): current, mean, stdev (its square),
min, max, message count. -/
structure StatsSummary where
  current : Int
  avg : ℚ
  stdSq : ℚ
  minLat : Int
  maxLat : Int
  messages : Nat
deriving Repr, DecidableEq

/-- Embedding of `LatencyStats.get_stats` (lines 28-44): `none` models the
early return of the string `"No messages received yet"` on an empty window;
otherwise the statistics of the window are computed, with
`std = stdev(latencies) if len(latencies) > 1 else 0` (carried squared, see
`sampleVarianceQ`). -/
def LatencyStats.get_stats (s : LatencyStats) : Option StatsSummary :=
  if s.latencies.isEmpty then none
  else
    some { current := s.latencies.getLastD 0
         , avg := listMean s.latencies
         , stdSq := if 1 < s.latencies.length then sampleVarianceQ s.latencies else 0
         , minLat := listMin s.latencies
         , maxLat := listMax s.latencies
         , messages := s.message_count }

/-- Fold a list of samples through `add_latency`. -/
def addAll (s : LatencyStats) : List Int → LatencyStats
  | [] => s
  | x :: xs => addAll (s.add_latency x) xs

/-- Python JSON values as `json.loads` produces them: `jint` for numbers
written without fraction or exponent (Python `int`), `jfloat` for the rest
(Python `float`, modelled by the exact rational of the decimal literal). -/
inductive Json where
  | null
  | bool (b : Bool)
  | jint (n : Int)
  | jfloat (q : ℚ)
  | str (s : String)
  | arr (xs : List Json)
  | obj (kvs : List (String × Json))

/-- Python `int()` on a rational: truncation toward zero. -/
def pyInt (q : ℚ) : Int :=
  if 0 ≤ q then ⌊q⌋ else ⌈q⌉

/-- Embedding of the send-time normalization at listener line 168:
`int(message['send_time'] * 1_000_000_000) if isinstance(message['send_time'],
float) else message['send_time']`, followed by the subtraction
`time.time_ns() - send_time_ns`.  `none` models the `TypeError` that
subtraction raises when the JSON value is a string, `null`, array or object;
Python `bool` is an `int` subclass, so `true`/`false` pass through as 1/0. -/
def sendTimeNs : Json → Option Int
  | .jint n => some n
  | .jfloat q => some (pyInt (q * 1000000000))
  | .bool b => some (if b then 1 else 0)
  | _ => none

/-- Lookup in a decoded JSON object.  `json.loads` builds a `dict`, where a
repeated key keeps the last occurrence, hence the reversal. -/
def pyLookup (k : String) (kvs : List (String × Json)) : Option Json :=
  kvs.reverse.lookup k

/-- A UTF-8 continuation byte (`0x80`-`0xBF`). -/
def contByte (b : Nat) : Bool :=
  128 ≤ b && b < 192

/-- Strict UTF-8 decoding of a byte sequence to code points, as
`bytes.decode('utf-8')` performs it (RFC 3629: shortest forms only, no
surrogate code points, at most U+10FFFF).  `none` models
`UnicodeDecodeError`. -/
def utf8Chars : List Nat → Option (List Char)
  | [] => some []
  | b :: rest =>
    if b < 128 then
      (utf8Chars rest).map (Char.ofNat b :: ·)
    else if 194 ≤ b && b ≤ 223 then
      match rest with
      | b1 :: rest1 =>
        if contByte b1 then
          (utf8Chars rest1).map (Char.ofNat ((b - 192) * 64 + (b1 - 128)) :: ·)
        else none
      | _ => none
    else if 224 ≤ b && b ≤ 239 then
      match rest with
      | b1 :: b2 :: rest2 =>
        if (if b = 224 then 160 ≤ b1 && b1 ≤ 191
            else if b = 237 then 128 ≤ b1 && b1 ≤ 159
            else contByte b1) && contByte b2 then
          (utf8Chars rest2).map
            (Char.ofNat ((b - 224) * 4096 + (b1 - 128) * 64 + (b2 - 128)) :: ·)
        else none
      | _ => none
    else if 240 ≤ b && b ≤ 244 then
      match rest with
      | b1 :: b2 :: b3 :: rest3 =>
        if (if b = 240 then 144 ≤ b1 && b1 ≤ 191
            else if b = 244 then 128 ≤ b1 && b1 ≤ 143
            else contByte b1) && contByte b2 && contByte b3 then
          (utf8Chars rest3).map
            (Char.ofNat ((b - 240) * 262144 + (b1 - 128) * 4096 +
                         (b2 - 128) * 64 + (b3 - 128)) :: ·)
        else none
      | _ => none
    else none

/-- Character constants used by the JSON grammar, by code point (kept out of
character-literal syntax for the punctuation characters). -/
def cQuote : Char := Char.ofNat 34
def cBackslash : Char := Char.ofNat 92
def cLBrace : Char := Char.ofNat 123
def cRBrace : Char := Char.ofNat 125
def cLBrack : Char := Char.ofNat 91
def cRBrack : Char := Char.ofNat 93
def cComma : Char := Char.ofNat 44
def cColon : Char := Char.ofNat 58
def cMinus : Char := Char.ofNat 45
def cPlus : Char := Char.ofNat 43
def cDot : Char := Char.ofNat 46
def cSlash : Char := Char.ofNat 47

/-- JSON whitespace (space, tab, line feed, carriage return). -/
def isJsonWs (c : Char) : Bool :=
  c.toNat = 32 || c.toNat = 9 || c.toNat = 10 || c.toNat = 13

def skipWs : List Char → List Char
  | [] => []
  | c :: cs => if isJsonWs c then skipWs cs else c :: cs

def isDigitCh (c : Char) : Bool :=
  48 ≤ c.toNat && c.toNat ≤ 57

def digitVal (c : Char) : Nat := c.toNat - 48

/-- Split a leading run of decimal digits. -/
def takeDigits : List Char → List Nat × List Char
  | [] => ([], [])
  | c :: cs =>
    if isDigitCh c then
      let (ds, rest) := takeDigits cs
      (digitVal c :: ds, rest)
    else ([], c :: cs)

def digitsToNat (ds : List Nat) : Nat :=
  ds.foldl (fun a d => a * 10 + d) 0

/-- Hex digit value, `none` if not a hex digit. -/
def hexVal (c : Char) : Option Nat :=
  if isDigitCh c then some (digitVal c)
  else if 97 ≤ c.toNat && c.toNat ≤ 102 then some (c.toNat - 87)
  else if 65 ≤ c.toNat && c.toNat ≤ 70 then some (c.toNat - 55)
  else none

/-- JSON string body after the opening quote, as the strict `json.loads`
scanner reads it: any character above U+001F other than quote and backslash
is literal; the short escapes and non-surrogate `\uXXXX` escapes are
translated (lone-surrogate escapes, which CPython tolerates, cannot inhabit
`Char` and are rejected; no theorem below depends on that corner). -/
def parseStringBody : List Char → Option (List Char × List Char)
  | [] => none
  | c :: cs =>
    if c = cQuote then some ([], cs)
    else if c = cBackslash then
      match cs with
      | [] => none
      | e :: cs1 =>
        if e.toNat = 117 then
          match cs1 with
          | h1 :: h2 :: h3 :: h4 :: cs2 =>
            match hexVal h1, hexVal h2, hexVal h3, hexVal h4 with
            | some v1, some v2, some v3, some v4 =>
              let code := ((v1 * 16 + v2) * 16 + v3) * 16 + v4
              if 55296 ≤ code && code ≤ 57343 then none
              else (parseStringBody cs2).map (fun (s, r) => (Char.ofNat code :: s, r))
            | _, _, _, _ => none
          | _ => none
        else
          let t : Option Char :=
            if e = cQuote then some cQuote
            else if e = cBackslash then some cBackslash
            else if e = cSlash then some cSlash
            else if e.toNat = 98 then some (Char.ofNat 8)
            else if e.toNat = 102 then some (Char.ofNat 12)
            else if e.toNat = 110 then some (Char.ofNat 10)
            else if e.toNat = 114 then some (Char.ofNat 13)
            else if e.toNat = 116 then some (Char.ofNat 9)
            else none
          match t with
          | some ch => (parseStringBody cs1).map (fun (s, r) => (ch :: s, r))
          | none => none
    else if c.toNat < 32 then none
    else (parseStringBody cs).map (fun (s, r) => (c :: s, r))

/-- JSON number, per the strict grammar `-? int frac? exp?` with
`int = 0 | [1-9][0-9]*`.  A number without fraction and exponent becomes a
Python `int` (`jint`); otherwise a `float` (`jfloat`, the exact rational of
the decimal literal — the claims below only evaluate it at literals that are
exactly representable as binary64, where `float()` introduces no error). -/
def parseNumber (cs0 : List Char) : Option (Json × List Char) :=
  let (neg, cs1) := match cs0 with
    | c :: cs => if c = cMinus then (true, cs) else (false, cs0)
    | [] => (false, cs0)
  match takeDigits cs1 with
  | ([], _) => none
  | (ds, cs2) =>
    if 2 ≤ ds.length && ds.headD 1 = 0 then none
    else
      let ipart : Nat := digitsToNat ds
      let (fds, cs3) : List Nat × List Char := match cs2 with
        | c :: cs => if c = cDot then takeDigits cs else ([], cs2)
        | [] => ([], cs2)
      let hasFrac : Bool := match cs2 with
        | c :: _ => c = cDot
        | [] => false
      if hasFrac && fds.isEmpty then none
      else
        let (hasExp, expNeg, eds, cs4) : Bool × Bool × List Nat × List Char :=
          match cs3 with
          | c :: cs =>
            if c.toNat = 101 || c.toNat = 69 then
              match cs with
              | c2 :: cs' =>
                if c2 = cMinus then let (eds, r) := takeDigits cs'; (true, true, eds, r)
                else if c2 = cPlus then let (eds, r) := takeDigits cs'; (true, false, eds, r)
                else let (eds, r) := takeDigits cs; (true, false, eds, r)
              | [] => (true, false, [], cs)
            else (false, false, [], cs3)
          | [] => (false, false, [], cs3)
        if hasExp && eds.isEmpty then none
        else
          let rest := if hasExp then cs4 else cs3
          if !hasFrac && !hasExp then
            some (Json.jint (if neg then -(ipart : Int) else ipart), rest)
          else
            let mag : ℚ :=
              ((ipart : ℚ) + (digitsToNat fds : ℚ) / (10 : ℚ) ^ fds.length) *
                (10 : ℚ) ^ (if expNeg then -(digitsToNat eds : Int) else (digitsToNat eds : Int))
            some (Json.jfloat (if neg then -mag else mag), rest)

/-- Match a literal keyword at the head of the input. -/
def matchKeyword (kw : List Char) (cs : List Char) : Option (List Char) :=
  match kw, cs with
  | [], _ => some cs
  | k :: kw', c :: cs' => if c = k then matchKeyword kw' cs' else none
  | _ :: _, [] => none

mutual

/-- Recursive-descent JSON value parser modelling `json.loads`; `fuel`
strictly decreases on every nested parse and `jsonLoads` supplies enough for
any input (each nesting level consumes at least one character). -/
def parseJson : Nat → List Char → Option (Json × List Char)
  | 0, _ => none
  | fuel + 1, cs =>
    match skipWs cs with
    | [] => none
    | c :: cs' =>
      if c = cQuote then
        (parseStringBody cs').map (fun (s, r) => (Json.str (String.mk s), r))
      else if c = cLBrace then
        match skipWs cs' with
        | c2 :: cs2 =>
          if c2 = cRBrace then some (Json.obj [], cs2)
          else parseMembers fuel (c2 :: cs2) []
        | [] => none
      else if c = cLBrack then
        match skipWs cs' with
        | c2 :: cs2 =>
          if c2 = cRBrack then some (Json.arr [], cs2)
          else parseElements fuel (c2 :: cs2) []
        | [] => none
      else if c.toNat = 116 then
        (matchKeyword [Char.ofNat 114, Char.ofNat 117, Char.ofNat 101] cs').map
          (fun r => (Json.bool true, r))
      else if c.toNat = 102 then
        (matchKeyword [Char.ofNat 97, Char.ofNat 108, Char.ofNat 115, Char.ofNat 101] cs').map
          (fun r => (Json.bool false, r))
      else if c.toNat = 110 then
        (matchKeyword [Char.ofNat 117, Char.ofNat 108, Char.ofNat 108] cs').map
          (fun r => (Json.null, r))
      else
        parseNumber (c :: cs')

/-- Object members after the opening brace (nonempty case): repeated
`"key" : value` separated by commas, closed by a brace. -/
def parseMembers : Nat → List Char → List (String × Json) → Option (Json × List Char)
  | 0, _, _ => none
  | fuel + 1, cs, acc =>
    match skipWs cs with
    | c :: cs1 =>
      if c = cQuote then
        match parseStringBody cs1 with
        | some (k, cs2) =>
          match skipWs cs2 with
          | c2 :: cs3 =>
            if c2 = cColon then
              match parseJson fuel cs3 with
              | some (v, cs4) =>
                let acc' := acc ++ [(String.mk k, v)]
                match skipWs cs4 with
                | c3 :: cs5 =>
                  if c3 = cComma then parseMembers fuel cs5 acc'
                  else if c3 = cRBrace then some (Json.obj acc', cs5)
                  else none
                | [] => none
              | none => none
            else none
          | [] => none
        | none => none
      else none
    | [] => none

/-- Array elements after the opening bracket (nonempty case). -/
def parseElements : Nat → List Char → List Json → Option (Json × List Char)
  | 0, _, _ => none
  | fuel + 1, cs, acc =>
    match parseJson fuel cs with
    | some (v, cs1) =>
      let acc' := acc ++ [v]
      match skipWs cs1 with
      | c :: cs2 =>
        if c = cComma then parseElements fuel cs2 acc'
        else if c = cRBrack then some (Json.arr acc', cs2)
        else none
      | [] => none
    | none => none

end

/-- Embedding of `json.loads` on a decoded text: parse one value, allow
surrounding whitespace, reject trailing data and empty input
(`json.JSONDecodeError` is `none`). -/
def jsonLoads (cs : List Char) : Option Json :=
  match parseJson (cs.length + 1) cs with
  | some (v, rest) =>
    match skipWs rest with
    | [] => some v
    | _ :: _ => none
  | none => none

/-- Whether `p` occurs as a contiguous substring of `l` (Python `in` on `str`). -/
def strContains (p l : List Char) : Bool :=
  (List.range (l.length + 1)).any (fun i => p.isPrefixOf (l.drop i))

/-- Message format selected by `--format`. -/
inductive WireFormat where
  | json
  | binary
deriving Repr, DecidableEq

/-- What one iteration of the listener loop printed for a datagram. -/
inductive Event where
  /-- The message block and statistics were printed and a latency recorded. -/
  | reported
  /-- The `json` branch took no action (no `send_time` key): nothing printed,
  no latency recorded, loop continues. -/
  | skipped
  /-- The inner `except (json.JSONDecodeError, struct.error)` handler printed
  the diagnostic (raw bytes, length, timing); loop continues. -/
  | decodeFailed
deriving Repr, DecidableEq

/-- The key string `"send_time"` as a character list. -/
def sendTimeKey : List Char :=
  "send_time".data

/-- Handling of a parsed JSON message (listener, lines 167-180): the check
`'send_time' in message` followed by the latency computation.  `none` models
an exception not caught by the inner handler (a `TypeError`): membership on a
non-container raises, membership on a `str` is a substring test and on a
`list` an element test, after which the string subscript `message['send_time']`
raises. -/
def processJson (now : Int) (stats : LatencyStats) : Json → Option (LatencyStats × Event)
  | .obj kvs =>
    match pyLookup "send_time" kvs with
    | none => some (stats, .skipped)
    | some v =>
      match sendTimeNs v with
      | none => none
      | some ns => some (stats.add_latency (now - ns), .reported)
  | .str s => if strContains sendTimeKey s.data then none else some (stats, .skipped)
  | .arr xs =>
    if xs.any (fun j => match j with | .str s => s = "send_time" | _ => false) then none
    else some (stats, .skipped)
  | _ => none

/-- One iteration of the receive loop of `listen_for_multicast` (listener,
lines 148-209) on a received datagram, at clock value `now`.

`some (stats', ev)` means the iteration completed and the loop continues with
`stats'`; `none` means an exception escaped the inner
`except (json.JSONDecodeError, struct.error)` handler, reached the outer
`except Exception` (lines 213-215) and the process exited: the loop
terminated.  In particular, in `json` mode `data.decode('utf-8')` raises
`UnicodeDecodeError`, which is a sibling of `json.JSONDecodeError` under
`ValueError` and is not caught by the inner handler. -/
def listenStep (fmt : WireFormat) (now : Int) (stats : LatencyStats) (data : List Nat) :
    Option (LatencyStats × Event) :=
  match fmt with
  | .json =>
    match utf8Chars data with
    | none => none
    | some cs =>
      match jsonLoads cs with
      | none => some (stats, .decodeFailed)
      | some msg => processJson now stats msg
  | .binary =>
    match decode_binary_message data with
    | none => some (stats, .decodeFailed)
    | some d => some (stats.add_latency (now - (d.send_time : Int)), .reported)

/-- The receive loop over a finite schedule of datagrams, each paired with
the clock value at its processing.  Returns the events of the completed
iterations, the final tracker state, and whether the loop is still running
(`false`: an uncaught exception terminated the process, the remaining
datagrams were never processed). -/
def runListener (fmt : WireFormat) (stats : LatencyStats) :
    List (Int × List Nat) → List Event × LatencyStats × Bool
  | [] => ([], stats, true)
  | (now, data) :: rest =>
    match listenStep fmt now stats data with
    | none => ([], stats, false)
    | some (stats', ev) =>
      let (evs, final, alive) := runListener fmt stats' rest
      (ev :: evs, final, alive)

/-- ASCII code points of a string (all datagram texts below are ASCII, where
UTF-8 encoding is the identity on code points). -/
def asciiBytes (s : String) : List Nat :=
  s.data.map Char.toNat

/-- Datagram: the ASCII text `\x7b"send_time": 5\x7d` (a valid JSON object
with an integer `send_time`). -/
def dgValidJson : List Nat :=
  [123, 34, 115, 101, 110, 100, 95, 116, 105, 109, 101, 34, 58, 32, 53, 125]

/-- Datagram: the ASCII text `\x7b"counter": 1\x7d` (a valid JSON object with
no `send_time` field). -/
def dgNoSendTime : List Nat :=
  [123, 34, 99, 111, 117, 110, 116, 101, 114, 34, 58, 32, 49, 125]

/-- Datagram: the ASCII text `not json` (valid UTF-8, not valid JSON). -/
def dgBadJson : List Nat :=
  asciiBytes "not json"

/-- Datagram: the single byte `0xFF`, not valid UTF-8 in any position. -/
def dgBadUtf8 : List Nat :=
  [255]

theorem natBE_singleton (b : Nat) : natBE [b] = b := by
  simp [natBE]

theorem addAll_window_size (s : LatencyStats) (xs : List Int) :
    (addAll s xs).window_size = s.window_size := by
  induction xs generalizing s with
  | nil => rfl
  | cons x xs ih => simp [addAll, ih, LatencyStats.add_latency]

theorem addAll_message_count (s : LatencyStats) (xs : List Int) :
    (addAll s xs).message_count = s.message_count + xs.length := by
  induction xs generalizing s with
  | nil => rfl
  | cons x xs ih => simp [addAll, ih, LatencyStats.add_latency]; omega

theorem add_latency_preserves_inv (s : LatencyStats) (x : Int)
    (h : s.latencies.length = min s.message_count s.window_size) :
    (s.add_latency x).latencies.length =
      min (s.add_latency x).message_count (s.add_latency x).window_size := by
  simp only [LatencyStats.add_latency, dequeAppend, List.length_drop,
    List.length_append, List.length_cons, List.length_nil]
  omega

theorem addAll_preserves_inv (s : LatencyStats) (xs : List Int)
    (h : s.latencies.length = min s.message_count s.window_size) :
    (addAll s xs).latencies.length =
      min (addAll s xs).message_count (addAll s xs).window_size := by
  induction xs generalizing s with
  | nil => exact h
  | cons x xs ih => exact ih _ (add_latency_preserves_inv s x h)

theorem decode_of_layout (a b c d : List Nat) (sb : Nat)
    (ha : a.length = 8) (hb : b.length = 4) (hc : c.length = 4) (hd : d.length = 4) :
    decode_binary_message (a ++ b ++ c ++ d ++ [sb]) = some
      { send_time := natBE a, counter := natBE b, temperature := natBE c,
        humidity := natBE d,
        status := if sb = 1 then "active" else "inactive" } := by
  have e1 : a ++ b ++ c ++ d ++ [sb] = a ++ (b ++ (c ++ (d ++ [sb]))) := by
    simp [List.append_assoc]
  have hlen : (a ++ b ++ c ++ d ++ [sb]).length = 21 := by
    simp [ha, hb, hc, hd]
  have htake8 : (a ++ b ++ c ++ d ++ [sb]).take 8 = a := by
    rw [e1]; exact List.take_left' ha
  have hdrop8 : (a ++ b ++ c ++ d ++ [sb]).drop 8 = b ++ (c ++ (d ++ [sb])) := by
    rw [e1]; exact List.drop_left' ha
  have hdrop12 : (a ++ b ++ c ++ d ++ [sb]).drop 12 = c ++ (d ++ [sb]) := by
    have : ((a ++ b ++ c ++ d ++ [sb]).drop 8).drop 4 =
        (a ++ b ++ c ++ d ++ [sb]).drop 12 := by
      rw [List.drop_drop]
    rw [← this, hdrop8]; exact List.drop_left' hb
  have hdrop16 : (a ++ b ++ c ++ d ++ [sb]).drop 16 = d ++ [sb] := by
    have : ((a ++ b ++ c ++ d ++ [sb]).drop 12).drop 4 =
        (a ++ b ++ c ++ d ++ [sb]).drop 16 := by
      rw [List.drop_drop]
    rw [← this, hdrop12]; exact List.drop_left' hc
  have hdrop20 : (a ++ b ++ c ++ d ++ [sb]).drop 20 = [sb] := by
    have : ((a ++ b ++ c ++ d ++ [sb]).drop 16).drop 4 =
        (a ++ b ++ c ++ d ++ [sb]).drop 20 := by
      rw [List.drop_drop]
    rw [← this, hdrop16]; exact List.drop_left' hd
  rw [decode_binary_message, if_pos hlen, htake8, hdrop8, List.take_left' hb,
    hdrop12, List.take_left' hc, hdrop16, List.take_left' hd, hdrop20, natBE_singleton]

/-- C1: For every valid Message M (all fields present, send_time a
non-negative integer below 2^64, counter a non-negative integer below 2^32),
decoding the binary encoding of M reproduces send_time and counter exactly
and reproduces temperature and humidity reduced to 32-bit IEEE-754 float
precision (the binary32 patterns `struct.pack('f', ·)` produces); status
'active' encodes to byte 1 and decodes back to 'active', status 'inactive'
encodes to byte 0 and decodes back to 'inactive'. -/
theorem binary_roundtrip (toF32 : ℚ → Option Nat) (m : Message) (tb hb : Nat)
    (hst0 : 0 ≤ m.send_time) (hst : m.send_time < 2 ^ 64)
    (hc0 : 0 ≤ m.counter) (hc : m.counter < 2 ^ 32)
    (ht : toF32 m.temperature = some tb) (hh : toF32 m.humidity = some hb)
    (htb : tb < 2 ^ 32) (hhb : hb < 2 ^ 32)
    (hstatus : m.status = "active" ∨ m.status = "inactive") :
    ∃ bs, encode_binary_message toF32 m = some bs ∧
      bs.getLastD 0 = (if m.status = "active" then 1 else 0) ∧
      decode_binary_message bs = some
        { send_time := m.send_time.toNat, counter := m.counter.toNat,
          temperature := tb, humidity := hb, status := m.status } := by
  have henc : encode_binary_message toF32 m =
      some (bytesBE 8 m.send_time.toNat ++ bytesBE 4 m.counter.toNat ++
            bytesBE 4 tb ++ bytesBE 4 hb ++
            [if m.status = "active" then 1 else 0]) := by
    rw [encode_binary_message, if_pos ⟨hst0, hst, hc0, hc⟩, ht, hh]
  refine ⟨_, henc, ?_, ?_⟩
  · simp
  · have hst' : m.send_time.toNat < 256 ^ 8 := by
      have : (2 : Int) ^ 64 = ((256 ^ 8 : Nat) : Int) := by norm_num
      rw [this] at hst
      omega
    have hc' : m.counter.toNat < 256 ^ 4 := by
      have : (2 : Int) ^ 32 = ((256 ^ 4 : Nat) : Int) := by norm_num
      rw [this] at hc
      omega
    have htb' : tb < 256 ^ 4 := by norm_num at htb ⊢; omega
    have hhb' : hb < 256 ^ 4 := by norm_num at hhb ⊢; omega
    rw [decode_of_layout _ _ _ _ _ (length_bytesBE 8 _) (length_bytesBE 4 _)
      (length_bytesBE 4 _) (length_bytesBE 4 _),
      natBE_bytesBE 8 _ hst', natBE_bytesBE 4 _ hc',
      natBE_bytesBE 4 _ htb', natBE_bytesBE 4 _ hhb']
    rcases hstatus with h | h <;> simp [h]

theorem binary_roundtrip_witness :
    ∃ bs, encode_binary_message (fun _ => some 1078530010) ⟨5, 7, 3, 3, "active"⟩ = some bs ∧
      bs.getLastD 0 = 1 ∧
      decode_binary_message bs = some
        { send_time := 5, counter := 7, temperature := 1078530010,
          humidity := 1078530010, status := "active" } := by
  have h := binary_roundtrip (fun _ => some 1078530010) ⟨5, 7, 3, 3, "active"⟩
    1078530010 1078530010 (by norm_num) (by norm_num) (by norm_num) (by norm_num)
    rfl rfl (by norm_num) (by norm_num) (Or.inl rfl)
  simpa using h

/-- C4: Binary decode fails (struct.error, the listener's DecodeError) for
every input byte sequence whose length is not exactly 21, and succeeds for
every input of length exactly 21: the length check is the only structural
failure mode of binary decode. -/
theorem binary_decode_length_iff (data : List Nat) :
    (decode_binary_message data).isSome ↔ data.length = 21 := by
  rw [decode_binary_message]
  by_cases h : data.length = 21 <;> simp [h]

/-- C5: In binary decode of a 21-byte input, a status byte equal to 1 decodes
to status 'active' and every other status byte value decodes to 'inactive';
no status byte value causes a decode error. -/
theorem binary_decode_status_byte (pre : List Nat) (b : Nat) (h : pre.length = 20) :
    (decode_binary_message (pre ++ [b])).map Decoded.status =
      some (if b = 1 then "active" else "inactive") := by
  have hl : (pre ++ [b]).length = 21 := by simp [h]
  have hd : (pre ++ [b]).drop 20 = [b] := List.drop_left' h
  rw [decode_binary_message, if_pos hl, hd, natBE_singleton]
  rfl

theorem binary_decode_status_byte_witness :
    (decode_binary_message (List.replicate 20 0 ++ [255])).map Decoded.status =
      some "inactive" := by
  have h := binary_decode_status_byte (List.replicate 20 0) 255 (by simp)
  simpa using h

/-- C6: For a latency tracker constructed with capacity 3, adding the samples
10, 20, 30, 40 in order leaves the window holding exactly [20, 30, 40] in
arrival order (the oldest sample evicted), with current sample 40 and total
count 4. -/
theorem latency_capacity3_example :
    addAll (mkLatencyStats 3) [10, 20, 30, 40] =
      { window_size := 3, latencies := [20, 30, 40], message_count := 4 } ∧
    ((addAll (mkLatencyStats 3) [10, 20, 30, 40]).get_stats).map StatsSummary.current =
      some 40 := by
  decide

/-- C7: For every capacity and every sequence of added samples, the invariant
`len(latencies) == min(message_count, window_size)` holds after each call:
the window never exceeds the fixed capacity set at construction (which is
never mutated), while the total count grows by one per added sample. -/
theorem latency_window_invariant (c : Nat) (xs : List Int) :
    (addAll (mkLatencyStats c) xs).latencies.length =
      min (addAll (mkLatencyStats c) xs).message_count
        (addAll (mkLatencyStats c) xs).window_size ∧
    (addAll (mkLatencyStats c) xs).message_count = xs.length ∧
    (addAll (mkLatencyStats c) xs).window_size = c := by
  refine ⟨addAll_preserves_inv _ _ (by simp [mkLatencyStats]), ?_, addAll_window_size _ _⟩
  rw [addAll_message_count]
  simp [mkLatencyStats]

/-- C8: summary (`get_stats`) on a tracker with zero samples yields the distinct
empty-window sentinel (no statistics are computed); on a tracker holding
exactly one sample 50 it yields stddev = 0 and mean = min = max = current =
50; on a window of two samples [10, 20] the squared standard deviation is 50,
the sample variance with divisor n-1 (divisor n would give 25). -/
theorem summary_empty_single_and_divisor :
    (∀ c : Nat, (mkLatencyStats c).get_stats = none) ∧
    (addAll (mkLatencyStats 100) [50]).get_stats =
      some { current := 50, avg := 50, stdSq := 0, minLat := 50, maxLat := 50,
             messages := 1 } ∧
    ((addAll (mkLatencyStats 100) [10, 20]).get_stats).map StatsSummary.stdSq =
      some 50 := by
  refine ⟨fun c => rfl, ?_, ?_⟩
  · have h1 : addAll (mkLatencyStats 100) [50] =
        { window_size := 100, latencies := [50], message_count := 1 } := by decide
    rw [h1]
    simp [LatencyStats.get_stats, listMean, sampleVarianceQ, listMin, listMax]
  · have h2 : addAll (mkLatencyStats 100) [10, 20] =
        { window_size := 100, latencies := [10, 20], message_count := 2 } := by decide
    rw [h2]
    simp [LatencyStats.get_stats, listMean, sampleVarianceQ, listMin, listMax]
    norm_num

/-- C2 (evaluation at the failing input): in json mode a datagram whose bytes
are not valid UTF-8 terminates the listener loop — `data.decode('utf-8')`
raises `UnicodeDecodeError`, which `except (json.JSONDecodeError,
struct.error)` does not catch, so the outer handler exits the process and a
valid datagram queued after it is never processed (first conjunct).  The
recovery the claim describes does hold for the failure modes the inner
handler covers: a json-mode datagram that is valid UTF-8 but not valid JSON,
and a wrong-length binary-mode datagram, are each reported and followed by a
processed valid datagram (second and third conjuncts). -/
theorem listener_loop_fatal_on_bad_utf8 :
    runListener .json (mkLatencyStats 100) [(1000, dgBadUtf8), (2000, dgValidJson)] =
      ([], mkLatencyStats 100, false) ∧
    runListener .json (mkLatencyStats 100) [(1000, dgBadJson), (2000, dgValidJson)] =
      ([Event.decodeFailed, Event.reported],
       { window_size := 100, latencies := [1995], message_count := 1 }, true) ∧
    runListener .binary (mkLatencyStats 100) [(1000, [1, 2, 3]), (2000, List.replicate 21 0)] =
      ([Event.decodeFailed, Event.reported],
       { window_size := 100, latencies := [2000], message_count := 1 }, true) := by
  refine ⟨by decide, by decide, by decide⟩

/-- C3 (counterexample): the listener uses an integer `send_time` unchanged,
so integer input 1700000000000000000 normalizes to itself, not to the value
1700000000500000000 the claim says both inputs share; and the float branch
`int(value * 1e9)` truncates toward zero rather than rounding to nearest:
for 1.5e-9 seconds the product is 1.5, the code yields 1 while
round-to-nearest yields 2. -/
theorem send_time_normalization_counterexample :
    sendTimeNs (Json.jint 1700000000000000000) = some 1700000000000000000 ∧
    (1700000000000000000 : Int) ≠ 1700000000500000000 ∧
    sendTimeNs (Json.jfloat (3 / 2000000000)) = some 1 ∧
    round ((3 : ℚ) / 2000000000 * 1000000000) = 2 := by
  refine ⟨rfl, by decide, ?_, by norm_num [round_eq]⟩
  have h : (3 / 2000000000 : ℚ) * 1000000000 = 3 / 2 := by norm_num
  simp [sendTimeNs, pyInt, h]
  norm_num

/-- C3 (amended): in text (json) decoding, a fractional (float) `send_time`
is interpreted as seconds and converted by `int(value * 1e9)`: multiplied by
1e9 and truncated toward zero (for a nonnegative value, the floor of the
product; equal to nearest rounding whenever the product is an exact integer).
An integer `send_time` is used as nanoseconds unchanged.  So fractional input
1700000000.5 yields 1700000000500000000, while integer input
1700000000000000000 yields 1700000000000000000 — a different value. -/
theorem send_time_normalization (n : Int) (q : ℚ) :
    sendTimeNs (Json.jint n) = some n ∧
    (0 ≤ q → sendTimeNs (Json.jfloat q) = some ⌊q * 1000000000⌋) ∧
    sendTimeNs (Json.jfloat (3400000001 / 2)) = some 1700000000500000000 := by
  refine ⟨rfl, fun hq => ?_, ?_⟩
  · simp [sendTimeNs, pyInt, mul_nonneg hq (by norm_num : (0 : ℚ) ≤ 1000000000)]
  · have h : (3400000001 / 2 : ℚ) * 1000000000 = 1700000000500000000 := by norm_num
    simp [sendTimeNs, pyInt, h]

theorem send_time_normalization_witness :
    sendTimeNs (Json.jfloat (1 / 2)) = some 500000000 := by
  have h := (send_time_normalization 0 (1 / 2)).2.1 (by norm_num)
  rw [h]
  norm_num

/-- C9: a json message that parses as an object lacking the `send_time` key
is handled without any exception: the listener takes no latency measurement
and leaves the tracker unchanged (first conjunct, for every such object);
and decode itself succeeds on such a datagram — the concrete datagram
`\x7b"counter": 1\x7d` completes its loop iteration with the tracker
untouched and no error event (second conjunct). -/
theorem json_missing_send_time_skipped (now : Int) (stats : LatencyStats)
    (kvs : List (String × Json)) (h : pyLookup "send_time" kvs = none) :
    processJson now stats (Json.obj kvs) = some (stats, Event.skipped) ∧
    listenStep .json now stats dgNoSendTime = some (stats, Event.skipped) := by
  constructor
  · simp [processJson, h]
  · rfl

theorem json_missing_send_time_skipped_witness :
    processJson 0 (mkLatencyStats 100) (Json.obj [("counter", Json.jint 1)]) =
      some (mkLatencyStats 100, Event.skipped) :=
  (json_missing_send_time_skipped 0 (mkLatencyStats 100) [("counter", Json.jint 1)] rfl).1

/-- C10: binary encode of a message with all fields present fails (raises
`struct.error` rather than producing bytes) whenever `send_time` is negative
or at least 2^64, or `counter` is negative or at least 2^32; and whenever it
does produce bytes, those integer fields were within range and the output is
exactly 21 bytes. -/
theorem encode_out_of_range_fails (toF32 : ℚ → Option Nat) (m : Message) :
    ((m.send_time < 0 ∨ 2 ^ 64 ≤ m.send_time ∨ m.counter < 0 ∨ 2 ^ 32 ≤ m.counter) →
      encode_binary_message toF32 m = none) ∧
    (∀ bs, encode_binary_message toF32 m = some bs →
      (0 ≤ m.send_time ∧ m.send_time < 2 ^ 64 ∧ 0 ≤ m.counter ∧ m.counter < 2 ^ 32) ∧
      bs.length = 21) := by
  constructor
  · intro h
    rw [encode_binary_message, if_neg]
    omega
  · intro bs hbs
    rw [encode_binary_message] at hbs
    by_cases hr : 0 ≤ m.send_time ∧ m.send_time < 2 ^ 64 ∧ 0 ≤ m.counter ∧ m.counter < 2 ^ 32
    · refine ⟨hr, ?_⟩
      rw [if_pos hr] at hbs
      rcases ht : toF32 m.temperature with _ | tb <;> rw [ht] at hbs
      · simp at hbs
      · rcases hh : toF32 m.humidity with _ | hb <;> rw [hh] at hbs
        · simp at hbs
        · simp only [Option.some.injEq] at hbs
          subst hbs
          simp [length_bytesBE]
    · rw [if_neg hr] at hbs
      simp at hbs

theorem encode_out_of_range_fails_witness :
    encode_binary_message (fun _ => some 0)
      { send_time := -1, counter := 0, temperature := 0, humidity := 0,
        status := "active" } = none :=
  (encode_out_of_range_fails (fun _ => some 0) _).1 (Or.inl (by norm_num))
